import Mathlib

/-!
Shallow embedding of `pycomotive.py`: locomotives, rolling stock, consists,
and the cargo-distribution routine, with theorems checking the specification's
claims about them.  Numbers are modelled as rationals (the Python code does
exact arithmetic on ints/floats in all the relevant paths); Python exceptions
are modelled with an explicit error type.
-/

/-- Python exceptions that the embedded code can raise.
`zeroDivision` models `ZeroDivisionError` from `(weight - dry_mass)/capacity`
when `capacity == 0`; `attributeError` models calling `.load` on a
`Locomotive` (which has no such method); `notFound` models the `ValueError`
raised by `deque.index` when the element is absent (the spec's `NotFound`
condition). -/
inductive PyError
  | zeroDivision
  | attributeError
  | notFound
  deriving DecidableEq, Repr

instance {e a : Type} [DecidableEq e] [DecidableEq a] : DecidableEq (Except e a) := fun x y =>
  match x, y with
  | .error u, .error v =>
      if h : u = v then isTrue (by rw [h]) else isFalse (fun hh => by cases hh; exact h rfl)
  | .error _, .ok _ => isFalse (fun hh => by cases hh)
  | .ok _, .error _ => isFalse (fun hh => by cases hh)
  | .ok u, .ok v =>
      if h : u = v then isTrue (by rw [h]) else isFalse (fun hh => by cases hh; exact h rfl)

/-- `Locomotive.__init__`: a descriptive record with no cargo logic. -/
structure Locomotive where
  name : String
  number : Int
  road : String
  lclass : String
  length : Rat
  weight : Rat
  power : Rat
  maxspeed : Rat
  deriving DecidableEq, Repr

/-- The state of a `RollingStock` object: the fields set by `__init__`. -/
structure RollingStock where
  car_type : String
  road : String
  number : Int
  color : String
  length : Rat
  dry_mass : Rat
  weight : Rat
  capacity : Rat
  maxspeed : Rat
  deriving DecidableEq, Repr

/-- `RollingStock.__init__`: `weight` is initialised to `dry_mass + load_mass`
(the Python defaults are `load_mass=0`, `maxspeed=1000`; callers here pass
them explicitly). -/
def RollingStock.init (car_type road : String) (number : Int) (color : String)
    (length dry_mass capacity load_mass maxspeed : Rat) : RollingStock :=
  { car_type := car_type
    road := road
    number := number
    color := color
    length := length
    dry_mass := dry_mass
    weight := dry_mass + load_mass
    capacity := capacity
    maxspeed := maxspeed }

/-- The `isfull` property: `(self.weight - self.dry_mass)/self.capacity`.
Python raises `ZeroDivisionError` when `capacity == 0`. -/
def RollingStock.isfull (c : RollingStock) : Except PyError Rat :=
  if c.capacity = 0 then .error .zeroDivision
  else .ok ((c.weight - c.dry_mass) / c.capacity)

/-- `RollingStock.load(mass)`: if `mass <= (1 - isfull)*capacity` the whole
mass is absorbed and 0 is returned; otherwise the car is set to
`dry_mass + capacity` and `mass - (1 - isfull)*capacity` is returned.
Returns the returned value together with the mutated object. -/
def RollingStock.load (c : RollingStock) (mass : Rat) :
    Except PyError (Rat × RollingStock) :=
  match c.isfull with
  | .error e => .error e
  | .ok f =>
      if mass ≤ (1 - f) * c.capacity then
        .ok (0, { c with weight := c.weight + mass })
      else
        .ok (mass - (1 - f) * c.capacity, { c with weight := c.dry_mass + c.capacity })

/-- `RollingStock.unload(p=1)`: clamps `p` down to `isfull` when `p > isfull`,
removes `p*(weight - dry_mass)` and returns the mass removed, together with
the mutated object.  The default argument is `p = 1`. -/
def RollingStock.unload (c : RollingStock) (p : Rat) :
    Except PyError (Rat × RollingStock) :=
  match c.isfull with
  | .error e => .error e
  | .ok f =>
      let q := if p > f then f else p
      let mass := q * (c.weight - c.dry_mass)
      .ok (mass, { c with weight := c.weight - mass })

/-- A unit in a consist's stock: either a `Locomotive` or a `RollingStock`. -/
inductive TrainUnit
  | loco (l : Locomotive)
  | car (c : RollingStock)
  deriving DecidableEq, Repr

/-- Attribute access `unit.length` (both classes have the attribute). -/
def TrainUnit.length : TrainUnit → Rat
  | .loco l => l.length
  | .car c => c.length

/-- Attribute access `unit.weight` (both classes have the attribute). -/
def TrainUnit.weight : TrainUnit → Rat
  | .loco l => l.weight
  | .car c => c.weight

/-- Calling `unit.load(mass)` on an arbitrary unit: a `Locomotive` has no
`load` method, so Python raises `AttributeError`. -/
def TrainUnit.load : TrainUnit → Rat → Except PyError (Rat × TrainUnit)
  | .loco _, _ => .error .attributeError
  | .car c, m =>
      match c.load m with
      | .error e => .error e
      | .ok (r, c') => .ok (r, .car c')

/-- A `Consist`: an integer number and the ordered stock (the Python `deque`,
modelled front-first as a list). -/
structure Consist where
  number : Int
  stock : List TrainUnit
  deriving DecidableEq, Repr

/-- The `length` property: `length = 0; for car in stock: length += car.length`. -/
def Consist.length (con : Consist) : Rat :=
  con.stock.foldl (fun acc u => acc + u.length) 0

/-- The `weight` property: `weight = 0; for car in stock: weight += car.weight`. -/
def Consist.weight (con : Consist) : Rat :=
  con.stock.foldl (fun acc u => acc + u.weight) 0

/-- `Consist.attach(car)`: `self.stock.append(car)`. -/
def Consist.attach (con : Consist) (u : TrainUnit) : Consist :=
  { con with stock := con.stock ++ [u] }

/-- `deque.index(car)`: the index of the first element equal to `car`,
`none` when absent (Python raises `ValueError`). -/
def dequeIndex (u : TrainUnit) : List TrainUnit → Option Nat
  | [] => none
  | v :: rest => if v = u then some 0 else (dequeIndex u rest).map (fun i => i + 1)

/-- `deque.rotate(-k)`: rotate left by `k` (for `k ≤ length`). -/
def rotateL (l : List TrainUnit) (k : Nat) : List TrainUnit :=
  l.drop k ++ l.take k

/-- `Consist.separate(car)`: `idx = stock.index(car)` (raising `ValueError`
before any mutation when absent), then rotate left by `idx` and pop
`len(stock) - idx` elements from the left into the new consist's stock.
Returns the post-state of `self` together with either the raised error or the
new consist (whose number is `self.number + 1`). -/
def Consist.separate (con : Consist) (u : TrainUnit) :
    Consist × Except PyError Consist :=
  match dequeIndex u con.stock with
  | none => (con, .error .notFound)
  | some idx =>
      let rotated := rotateL con.stock idx
      let moved := rotated.take (rotated.length - idx)
      let kept := rotated.drop (rotated.length - idx)
      ({ con with stock := kept }, .ok { number := con.number + 1, stock := moved })

/-- Python `str.title()` restricted to the single-word strings the program
uses: first character upper-cased, the rest lower-cased. -/
def pyTitle (s : String) : String :=
  match s.toList with
  | [] => ""
  | ch :: rest => String.mk (ch.toUpper :: rest.map Char.toLower)

/-- The `typ is None` branch of `load_consist`: walk the stock in order,
returning early (leaving the remaining units untouched) once `cargo == 0`,
otherwise calling `car.load(cargo)` on every unit — including locomotives,
on which the call raises `AttributeError`.  Returns the post-state of the
stock together with either the raised error or the remaining cargo. -/
def loadStockAll : Rat → List TrainUnit → List TrainUnit × Except PyError Rat
  | cargo, [] => ([], .ok cargo)
  | cargo, u :: rest =>
      if cargo = 0 then (u :: rest, .ok cargo)
      else
        match u.load cargo with
        | .error e => (u :: rest, .error e)
        | .ok (c', u') =>
            let res := loadStockAll c' rest
            (u' :: res.1, res.2)

/-- The filtered branch of `load_consist`: locomotives are skipped
(`isinstance` check), then `cargo == 0` returns early, and only cars whose
`car_type` equals `typ.title()` are loaded. -/
def loadStockTyped (t : String) : Rat → List TrainUnit → List TrainUnit × Except PyError Rat
  | cargo, [] => ([], .ok cargo)
  | cargo, u :: rest =>
      match u with
      | .loco _ =>
          let res := loadStockTyped t cargo rest
          (u :: res.1, res.2)
      | .car c =>
          if cargo = 0 then (u :: rest, .ok cargo)
          else if c.car_type = t then
            match c.load cargo with
            | .error e => (u :: rest, .error e)
            | .ok (c', car') =>
                let res := loadStockTyped t c' rest
                (.car car' :: res.1, res.2)
          else
            let res := loadStockTyped t cargo rest
            (u :: res.1, res.2)

/-- `load_consist(cargo, con, typ)`: dispatch on whether a car-type filter was
given; the first component is the post-state of the consist (the stock is
mutated in place), the second the function's return value or the raised
error.  (The `tqdm` progress bar and `time.sleep` pacing are presentation
only and not modelled.) -/
def load_consist (cargo : Rat) (con : Consist) (typ : Option String) :
    Consist × Except PyError Rat :=
  match typ with
  | none =>
      let res := loadStockAll cargo con.stock
      ({ con with stock := res.1 }, res.2)
  | some t =>
      let res := loadStockTyped (pyTitle t) cargo con.stock
      ({ con with stock := res.1 }, res.2)

/-- One call in a load/unload sequence against a single car. -/
inductive StockOp
  | load (m : Rat)
  | unload (p : Rat)
  deriving DecidableEq, Repr

/-- Non-negative input, as required by the invariant claim. -/
def StockOp.valid : StockOp → Prop
  | .load m => 0 ≤ m
  | .unload p => 0 ≤ p

instance : DecidablePred StockOp.valid := fun op =>
  match op with
  | .load m => inferInstanceAs (Decidable (0 ≤ m))
  | .unload p => inferInstanceAs (Decidable (0 ≤ p))

/-- Perform one call on a car. -/
def applyOp (c : RollingStock) : StockOp → Except PyError (Rat × RollingStock)
  | .load m => c.load m
  | .unload p => c.unload p

/-- Perform a sequence of calls, threading the mutated car. -/
def runOps (c : RollingStock) : List StockOp → Except PyError RollingStock
  | [] => .ok c
  | op :: rest =>
      match applyOp c op with
      | .error e => .error e
      | .ok (_, c') => runOps c' rest

/-- The empty example car of spec §8: dry mass 20000, capacity 50000. -/
def specCar : RollingStock :=
  RollingStock.init "Boxcar" "UP" 1 "red" 10 20000 50000 0 1000

/-- The §8 example car holding 30000 of load: weight 50000, fill ratio 3/5. -/
def partCar : RollingStock :=
  RollingStock.init "Boxcar" "UP" 2 "red" 10 20000 50000 30000 1000

/-- A car filled exactly to capacity: weight 70000 = 20000 + 50000. -/
def fullCar : RollingStock :=
  RollingStock.init "Boxcar" "UP" 3 "blue" 10 20000 50000 50000 1000

/-- A degenerate car with capacity 0 (the constructor performs no validation). -/
def zeroCar : RollingStock :=
  RollingStock.init "Boxcar" "UP" 4 "grey" 10 5 0 0 1000

/-- A loaded car (dry mass 0, capacity 1, load 1) for the unload analysis. -/
def negCar : RollingStock :=
  RollingStock.init "Gondola" "UP" 5 "green" 10 0 1 1 1000

/-- A concrete locomotive. -/
def demoLoco : Locomotive :=
  { name := "BigBoy", number := 4004, road := "UP", lclass := "4-8-8-4",
    length := 40, weight := 500000, power := 6290, maxspeed := 80 }

/-- A consist whose stock holds only a locomotive. -/
def demoCon : Consist := { number := 1, stock := [.loco demoLoco] }

def unitA : TrainUnit := .car (RollingStock.init "Boxcar" "SOO" 11 "red" 10 1000 2000 0 1000)

def unitB : TrainUnit := .car (RollingStock.init "Gondola" "SOO" 12 "blue" 15 1200 2500 0 1000)

def unitC : TrainUnit := .car (RollingStock.init "Hopper" "SOO" 13 "green" 20 1400 3000 0 1000)

def unitD : TrainUnit := .car (RollingStock.init "Flatcar" "SOO" 14 "white" 12 900 1500 0 1000)

/-- A three-car consist used as a concrete input for the separate theorems. -/
def con6 : Consist := { number := 7, stock := [unitA, unitB, unitC] }

/-! ## Helper lemmas -/

lemma foldl_add_length (l : List TrainUnit) (a : Rat) :
    l.foldl (fun acc u => acc + u.length) a = a + (l.map TrainUnit.length).sum := by
  induction l generalizing a with
  | nil => simp
  | cons u rest ih => simp [ih]; ring

lemma foldl_add_weight (l : List TrainUnit) (a : Rat) :
    l.foldl (fun acc u => acc + u.weight) a = a + (l.map TrainUnit.weight).sum := by
  induction l generalizing a with
  | nil => simp
  | cons u rest ih => simp [ih]; ring

lemma dequeIndex_eq_none (u : TrainUnit) :
    ∀ l : List TrainUnit, u ∉ l → dequeIndex u l = none := by
  intro l
  induction l with
  | nil => intro _; rfl
  | cons v rest ih =>
      intro h
      simp only [List.mem_cons, not_or] at h
      have hv : v ≠ u := fun e => h.1 e.symm
      simp [dequeIndex, hv, ih h.2]

lemma dequeIndex_isSome (u : TrainUnit) :
    ∀ l : List TrainUnit, u ∈ l → ∃ i, dequeIndex u l = some i := by
  intro l
  induction l with
  | nil => intro h; simp at h
  | cons v rest ih =>
      intro h
      by_cases hv : v = u
      · exact ⟨0, by simp [dequeIndex, hv]⟩
      · have hm : u ∈ rest := by
          rcases List.mem_cons.mp h with h1 | h1
          · exact absurd h1.symm hv
          · exact h1
        obtain ⟨i, hi⟩ := ih hm
        exact ⟨i + 1, by simp [dequeIndex, hv, hi]⟩

lemma dequeIndex_spec (u : TrainUnit) :
    ∀ (l : List TrainUnit) (i : Nat), dequeIndex u l = some i →
      ∃ pre suf, l = pre ++ u :: suf ∧ pre.length = i ∧ u ∉ pre := by
  intro l
  induction l with
  | nil => intro i h; simp [dequeIndex] at h
  | cons v rest ih =>
      intro i h
      by_cases hv : v = u
      · refine ⟨[], rest, by rw [hv]; rfl, ?_, by simp⟩
        simp [dequeIndex, hv] at h
        simpa using h
      · simp only [dequeIndex, if_neg hv, Option.map_eq_some'] at h
        obtain ⟨j, hj, hji⟩ := h
        obtain ⟨pre, suf, h1, h2, h3⟩ := ih j hj
        refine ⟨v :: pre, suf, by simp [h1], ?_, ?_⟩
        · simp [h2, hji]
        · simp only [List.mem_cons, not_or]
          exact ⟨fun e => hv e.symm, h3⟩

lemma separate_eq (con : Consist) (u : TrainUnit) (pre suf : List TrainUnit)
    (hl : con.stock = pre ++ u :: suf)
    (hi : dequeIndex u con.stock = some pre.length) :
    con.separate u =
      ({ con with stock := pre },
        .ok { number := con.number + 1, stock := u :: suf }) := by
  have hrot : rotateL con.stock pre.length = (u :: suf) ++ pre := by
    rw [rotateL, hl, List.drop_left, List.take_left]
  have hn : ((u :: suf) ++ pre).length - pre.length = (u :: suf).length := by
    simp only [List.length_append, List.length_cons]
    omega
  unfold Consist.separate
  rw [hi]
  simp only [hrot, hn, List.take_left, List.drop_left]

lemma isfull_ok (c : RollingStock) (hc : c.capacity ≠ 0) :
    c.isfull = .ok ((c.weight - c.dry_mass) / c.capacity) := by
  simp [RollingStock.isfull, hc]

lemma load_eq (c : RollingStock) (m : Rat) (hc : c.capacity ≠ 0) :
    c.load m =
      if m ≤ c.capacity - (c.weight - c.dry_mass) then
        .ok (0, { c with weight := c.weight + m })
      else
        .ok (m - (c.capacity - (c.weight - c.dry_mass)),
             { c with weight := c.dry_mass + c.capacity }) := by
  have he : (1 - (c.weight - c.dry_mass) / c.capacity) * c.capacity
      = c.capacity - (c.weight - c.dry_mass) := by
    field_simp
  simp only [RollingStock.load, isfull_ok c hc, he]

lemma unload_eq (c : RollingStock) (p : Rat) (hc : c.capacity ≠ 0) :
    c.unload p =
      .ok ((if p > (c.weight - c.dry_mass) / c.capacity
              then (c.weight - c.dry_mass) / c.capacity else p)
            * (c.weight - c.dry_mass),
           { c with weight := c.weight -
              (if p > (c.weight - c.dry_mass) / c.capacity
                then (c.weight - c.dry_mass) / c.capacity else p)
              * (c.weight - c.dry_mass) }) := by
  simp only [RollingStock.unload, isfull_ok c hc]

lemma load_step (c : RollingStock) (m : Rat) (hc : 0 < c.capacity)
    (h1 : c.dry_mass ≤ c.weight) (h2 : c.weight ≤ c.dry_mass + c.capacity)
    (hm : 0 ≤ m) :
    ∃ r c1, c.load m = .ok (r, c1) ∧ c1.dry_mass = c.dry_mass ∧
      c1.capacity = c.capacity ∧ c.dry_mass ≤ c1.weight ∧
      c1.weight ≤ c.dry_mass + c.capacity := by
  rw [load_eq c m (ne_of_gt hc)]
  by_cases hcase : m ≤ c.capacity - (c.weight - c.dry_mass)
  · rw [if_pos hcase]
    refine ⟨0, _, rfl, rfl, rfl, ?_, ?_⟩
    · show c.dry_mass ≤ c.weight + m
      linarith
    · show c.weight + m ≤ c.dry_mass + c.capacity
      linarith
  · rw [if_neg hcase]
    refine ⟨_, _, rfl, rfl, rfl, ?_, ?_⟩
    · show c.dry_mass ≤ c.dry_mass + c.capacity
      linarith
    · show c.dry_mass + c.capacity ≤ c.dry_mass + c.capacity
      linarith

lemma unload_step (c : RollingStock) (p : Rat) (hc : 0 < c.capacity)
    (h1 : c.dry_mass ≤ c.weight) (h2 : c.weight ≤ c.dry_mass + c.capacity)
    (hp : 0 ≤ p) :
    ∃ r c1, c.unload p = .ok (r, c1) ∧ c1.dry_mass = c.dry_mass ∧
      c1.capacity = c.capacity ∧ c.dry_mass ≤ c1.weight ∧
      c1.weight ≤ c.dry_mass + c.capacity := by
  rw [unload_eq c p (ne_of_gt hc)]
  set f := (c.weight - c.dry_mass) / c.capacity with hf
  set q := if p > f then f else p with hq
  have hf0 : 0 ≤ f := div_nonneg (by linarith) hc.le
  have hf1 : f ≤ 1 := (div_le_one hc).mpr (by linarith)
  have hq0 : 0 ≤ q := by
    rw [hq]; split_ifs
    exacts [hf0, hp]
  have hq1 : q ≤ 1 := by
    rw [hq]; split_ifs with h
    · exact hf1
    · exact le_trans (not_lt.mp h) hf1
  have hml : q * (c.weight - c.dry_mass) ≤ c.weight - c.dry_mass := by
    calc q * (c.weight - c.dry_mass) ≤ 1 * (c.weight - c.dry_mass) :=
          mul_le_mul_of_nonneg_right hq1 (by linarith)
      _ = c.weight - c.dry_mass := one_mul _
  have hmg : 0 ≤ q * (c.weight - c.dry_mass) := mul_nonneg hq0 (by linarith)
  refine ⟨_, _, rfl, rfl, rfl, ?_, ?_⟩
  · show c.dry_mass ≤ c.weight - q * (c.weight - c.dry_mass)
    linarith
  · show c.weight - q * (c.weight - c.dry_mass) ≤ c.dry_mass + c.capacity
    linarith

lemma runOps_inv (ops : List StockOp) :
    ∀ c : RollingStock, 0 < c.capacity → c.dry_mass ≤ c.weight →
      c.weight ≤ c.dry_mass + c.capacity → (∀ op ∈ ops, op.valid) →
      ∃ c', runOps c ops = .ok c' ∧ c'.dry_mass = c.dry_mass ∧
        c'.capacity = c.capacity ∧ c'.dry_mass ≤ c'.weight ∧
        c'.weight ≤ c'.dry_mass + c'.capacity := by
  induction ops with
  | nil => intro c hc h1 h2 _; exact ⟨c, rfl, rfl, rfl, h1, h2⟩
  | cons op rest ih =>
      intro c hc h1 h2 hops
      have hop : op.valid := hops op (List.mem_cons_self op rest)
      have hrest : ∀ o ∈ rest, o.valid := fun o ho => hops o (List.mem_cons_of_mem op ho)
      obtain ⟨r, c1, happ, hdry, hcap, hw1, hw2⟩ :
          ∃ r c1, applyOp c op = .ok (r, c1) ∧ c1.dry_mass = c.dry_mass ∧
            c1.capacity = c.capacity ∧ c.dry_mass ≤ c1.weight ∧
            c1.weight ≤ c.dry_mass + c.capacity := by
        cases op with
        | load m => exact load_step c m hc h1 h2 hop
        | unload p => exact unload_step c p hc h1 h2 hop
      obtain ⟨c', hrun, hdry', hcap', hl', hu'⟩ :=
        ih c1 (by rw [hcap]; exact hc) (by rw [hdry]; exact hw1)
          (by rw [hdry, hcap]; exact hw2) hrest
      refine ⟨c', ?_, ?_, ?_, hl', hu'⟩
      · simp only [runOps, happ]
        exact hrun
      · rw [hdry', hdry]
      · rw [hcap', hcap]

/-! ## Claim theorems -/

/-- Claim C1 (code bug evaluation): on the spec's own example car (dry mass
20000, capacity 50000) holding 30000 of load — which satisfies
`dry_mass <= weight <= dry_mass + capacity` — `unload(1.0)` clamps the
fraction to the fill ratio 3/5, removes only 18000 of the 30000 loaded, and
leaves `fill_ratio = 6/25`, not 0.  The code thus contradicts both the claim
and its own docstring ("Default to fully unload"). -/
theorem C1_unload_one_leaves_load :
    partCar.dry_mass ≤ partCar.weight ∧
    partCar.weight ≤ partCar.dry_mass + partCar.capacity ∧
    partCar.unload 1 = .ok (18000, { partCar with weight := 32000 }) ∧
    ({ partCar with weight := (32000 : Rat) }).isfull = .ok (6 / 25) ∧
    (6 / 25 : Rat) ≠ 0 := by
  refine ⟨?_, ?_, ?_, ?_, ?_⟩ <;>
    norm_num [partCar, RollingStock.init, RollingStock.unload, RollingStock.isfull]

/-- Claim C2 (code bug evaluation): on a consist whose stock is a single
locomotive and a cargo budget of 5, `load_consist` with no car-type filter
calls `load` on the locomotive and raises `AttributeError` (the
`isinstance(car, Locomotive)` skip exists only in the filtered branch),
while the filtered call skips the locomotive and returns normally. -/
theorem C2_no_filter_loads_locomotive :
    load_consist 5 demoCon none = (demoCon, .error .attributeError) ∧
    load_consist 5 demoCon (some "gondola") = (demoCon, .ok 5) := by
  constructor <;>
    norm_num [load_consist, loadStockAll, loadStockTyped, TrainUnit.load, demoCon]

/-- Claim C3 (counterexample): on a car with dry mass 0, capacity 1 and load
1, `unload(-1)` does not fail with any error condition: it returns normally
with return value -1 and increases the weight from 1 to 2 (the clamp only
caps the fraction from above, so the negative fraction flows through the
arithmetic). -/
theorem C3_counterexample :
    ((-1 : Rat) < 0) ∧
    negCar.unload (-1) = .ok (-1, { negCar with weight := 2 }) ∧
    negCar.weight < ({ negCar with weight := (2 : Rat) } : RollingStock).weight := by
  refine ⟨by norm_num, ?_, ?_⟩ <;>
    norm_num [negCar, RollingStock.init, RollingStock.unload, RollingStock.isfull]

/-- Claim C3 (amended): for every `RollingStock` with nonzero capacity and
every negative fraction `f`, `unload(f)` returns normally (no error is
raised), removing the negative mass `r` so that the new weight is
`weight - r`; in particular, whenever the car holds positive load the
weight strictly increases. -/
theorem C3_unload_negative_returns (c : RollingStock) (f : Rat)
    (hc : c.capacity ≠ 0) (hf : f < 0) :
    ∃ r c1, c.unload f = .ok (r, c1) ∧ c1.weight = c.weight - r ∧
      (c.dry_mass < c.weight → c.weight < c1.weight) := by
  rw [unload_eq c f hc]
  refine ⟨_, _, rfl, rfl, ?_⟩
  intro hlt
  show c.weight < c.weight -
    (if f > (c.weight - c.dry_mass) / c.capacity
      then (c.weight - c.dry_mass) / c.capacity else f) * (c.weight - c.dry_mass)
  set g := (c.weight - c.dry_mass) / c.capacity with hg
  have hq : (if f > g then g else f) < 0 := by
    split_ifs with h
    · exact lt_trans h hf
    · exact hf
  have hload : 0 < c.weight - c.dry_mass := by linarith
  have := mul_neg_of_neg_of_pos hq hload
  linarith

/-- Witness for C3's amended theorem at the concrete car `negCar` and
fraction -1. -/
theorem C3_witness :
    ∃ r c1, negCar.unload (-1) = .ok (r, c1) ∧ c1.weight = negCar.weight - r ∧
      (negCar.dry_mass < negCar.weight → negCar.weight < c1.weight) :=
  C3_unload_negative_returns negCar (-1)
    (by norm_num [negCar, RollingStock.init]) (by norm_num)

/-- Claim C4: starting from any `RollingStock` constructed with
`0 <= load_mass <= capacity` and `capacity > 0`, any sequence of `load`
calls with non-negative mass and `unload` calls with non-negative fraction
succeeds and ends in a state with `dry_mass <= weight <= dry_mass +
capacity`.  Quantifying over all sequences covers the state after every
call: the state after call `k` of a sequence is the final state of its
length-`k` prefix, itself such a sequence. -/
theorem C4_invariant_preserved (ct road : String) (num : Int) (col : String)
    (len dm cap lm ms : Rat) (ops : List StockOp)
    (h0 : 0 ≤ lm) (h1 : lm ≤ cap) (h2 : 0 < cap)
    (hops : ∀ op ∈ ops, op.valid) :
    ∃ c', runOps (RollingStock.init ct road num col len dm cap lm ms) ops = .ok c' ∧
      dm ≤ c'.weight ∧ c'.weight ≤ dm + cap := by
  obtain ⟨c', hrun, hdry, hcap, hl, hu⟩ :=
    runOps_inv ops (RollingStock.init ct road num col len dm cap lm ms)
      h2 (by show dm ≤ dm + lm; linarith) (by show dm + lm ≤ dm + cap; linarith) hops
  have hdry' : c'.dry_mass = dm := hdry
  have hcap' : c'.capacity = cap := hcap
  refine ⟨c', hrun, ?_, ?_⟩
  · rw [← hdry']
    exact hl
  · rw [← hdry', ← hcap']
    exact hu

/-- Witness for C4 at a concrete car (dry mass 2, capacity 4, load 1) and the
sequence `[load 5, unload 1]`. -/
theorem C4_witness :
    ∃ c', runOps (RollingStock.init "Boxcar" "UP" 21 "red" 10 2 4 1 1000)
        [StockOp.load 5, StockOp.unload 1] = .ok c' ∧
      (2 : Rat) ≤ c'.weight ∧ c'.weight ≤ 2 + 4 :=
  C4_invariant_preserved "Boxcar" "UP" 21 "red" 10 2 4 1 1000
    [StockOp.load 5, StockOp.unload 1]
    (by norm_num) (by norm_num) (by norm_num) (by norm_num [StockOp.valid])

/-- Claim C5 (counterexample to the unrestricted claim): the degenerate car
`zeroCar` has capacity 0, satisfies `dry_mass <= weight <= dry_mass +
capacity`, and `0` is a non-negative mass not exceeding the free capacity 0;
yet `load(0)` raises `ZeroDivisionError` (computing `isfull` divides by the
capacity) instead of returning 0 with the weight unchanged. -/
theorem C5_counterexample :
    zeroCar.dry_mass ≤ zeroCar.weight ∧
    zeroCar.weight ≤ zeroCar.dry_mass + zeroCar.capacity ∧
    (0 : Rat) ≤ zeroCar.capacity - (zeroCar.weight - zeroCar.dry_mass) ∧
    zeroCar.load 0 = .error .zeroDivision ∧
    zeroCar.load 0 ≠ .ok (0, { zeroCar with weight := zeroCar.weight + 0 }) := by
  refine ⟨?_, ?_, ?_, ?_, ?_⟩ <;>
    norm_num [zeroCar, RollingStock.init, RollingStock.load, RollingStock.isfull]
  exact fun h => Except.noConfusion h

/-- Claim C5 (amended with nonzero capacity): for every `RollingStock` with
`capacity ≠ 0`, `dry_mass <= weight <= dry_mass + capacity` and non-negative
mass `m`: if `m` is at most the free capacity `capacity - (weight -
dry_mass)` then `load(m)` adds exactly `m` to the weight and returns 0;
otherwise it sets the weight to exactly `dry_mass + capacity` and returns
`m` minus the free capacity before the call. -/
theorem C5_load_cases (c : RollingStock) (m : Rat) (hc : c.capacity ≠ 0)
    (h1 : c.dry_mass ≤ c.weight) (h2 : c.weight ≤ c.dry_mass + c.capacity)
    (hm : 0 ≤ m) :
    (m ≤ c.capacity - (c.weight - c.dry_mass) →
      c.load m = .ok (0, { c with weight := c.weight + m })) ∧
    (c.capacity - (c.weight - c.dry_mass) < m →
      c.load m = .ok (m - (c.capacity - (c.weight - c.dry_mass)),
        { c with weight := c.dry_mass + c.capacity })) := by
  rw [load_eq c m hc]
  constructor
  · intro h
    rw [if_pos h]
  · intro h
    rw [if_neg (not_le.mpr h)]

/-- Witness for C5's amended theorem: the spec's §8 example, `specCar` (dry
mass 20000, capacity 50000, empty) absorbing 30000 entirely. -/
theorem C5_witness :
    specCar.load 30000 = .ok (0, { specCar with weight := specCar.weight + 30000 }) :=
  (C5_load_cases specCar 30000 (by norm_num [specCar, RollingStock.init])
    (by norm_num [specCar, RollingStock.init]) (by norm_num [specCar, RollingStock.init])
    (by norm_num)).1 (by norm_num [specCar, RollingStock.init])

/-- Claim C6: for every consist and every unit present in its stock,
`separate(unit)` splits the original stock exactly into the prefix strictly
before the (first occurrence of the) unit — which remains in the original
consist, in order — and the unit followed by the original suffix, which
becomes the new consist's stock, in order; nothing is lost or duplicated
(the two parts concatenate back to the original stock), and the new
consist's number is the original's number plus 1. -/
theorem C6_separate_partition (con : Consist) (u : TrainUnit) (h : u ∈ con.stock) :
    ∃ pre suf, con.stock = pre ++ u :: suf ∧ u ∉ pre ∧
      (con.separate u).1 = { number := con.number, stock := pre } ∧
      (con.separate u).2 = .ok { number := con.number + 1, stock := u :: suf } := by
  obtain ⟨i, hi⟩ := dequeIndex_isSome u con.stock h
  obtain ⟨pre, suf, hl, hlen, hpre⟩ := dequeIndex_spec u con.stock i hi
  have hi' : dequeIndex u con.stock = some pre.length := by rw [hlen]; exact hi
  have heq := separate_eq con u pre suf hl hi'
  exact ⟨pre, suf, hl, hpre, by rw [heq], by rw [heq]⟩

/-- Witness for C6: separating the three-unit consist `con6` at its middle
unit. -/
theorem C6_witness :
    ∃ pre suf, con6.stock = pre ++ unitB :: suf ∧ unitB ∉ pre ∧
      (con6.separate unitB).1 = { number := con6.number, stock := pre } ∧
      (con6.separate unitB).2 = .ok { number := con6.number + 1, stock := unitB :: suf } :=
  C6_separate_partition con6 unitB (by simp [con6])

/-- Claim C7: for every consist and every unit not present in its stock,
`separate(unit)` fails with the `NotFound` condition (Python's `ValueError`
from `deque.index`), and fails atomically: the returned post-state of the
consist is exactly the original consist, the error being raised before any
mutation. -/
theorem C7_separate_absent (con : Consist) (u : TrainUnit) (h : u ∉ con.stock) :
    con.separate u = (con, .error .notFound) := by
  unfold Consist.separate
  rw [dequeIndex_eq_none u con.stock h]

/-- Witness for C7: separating `con6` at the absent unit `unitD`. -/
theorem C7_witness : con6.separate unitD = (con6, .error .notFound) :=
  C7_separate_absent con6 unitD
    (by simp [con6, unitA, unitB, unitC, unitD, RollingStock.init])

/-- Claim C8: for every consist, the derived `length` property equals the sum
of the `length` attribute over the units of its stock, and the derived
`weight` property equals the sum of the `weight` attribute over the units of
its stock.  Both properties are recomputed from the current stock on every
access, so the equalities hold for every consist value — in particular after
any sequence of `attach` and `separate` operations, whose results are again
consist values. -/
theorem C8_length_weight_sums (con : Consist) :
    con.length = (con.stock.map TrainUnit.length).sum ∧
    con.weight = (con.stock.map TrainUnit.weight).sum := by
  constructor
  · show con.stock.foldl (fun acc u => acc + u.length) 0 = _
    rw [foldl_add_length]
    ring
  · show con.stock.foldl (fun acc u => acc + u.weight) 0 = _
    rw [foldl_add_weight]
    ring

/-- Claim C9 (counterexample to the unrestricted claim): the degenerate car
`zeroCar` (capacity 0) is "filled exactly to capacity" in the claim's sense
(`weight = dry_mass + capacity`), yet `load(1)` raises `ZeroDivisionError`
instead of returning the input as overflow. -/
theorem C9_counterexample :
    zeroCar.weight = zeroCar.dry_mass + zeroCar.capacity ∧
    zeroCar.load 1 = .error .zeroDivision ∧
    zeroCar.load 1 ≠ .ok (1, zeroCar) := by
  refine ⟨?_, ?_, ?_⟩ <;>
    norm_num [zeroCar, RollingStock.init, RollingStock.load, RollingStock.isfull]
  exact fun h => Except.noConfusion h

/-- Claim C9 (amended with nonzero capacity): for every `RollingStock` with
`capacity ≠ 0` filled exactly to capacity (`weight = dry_mass + capacity`)
and every positive mass `m`, `load(m)` returns the entire input `m` as
overflow and returns the car unchanged (`load` is idempotent on a full
car). -/
theorem C9_full_car_overflow (c : RollingStock) (m : Rat) (hc : c.capacity ≠ 0)
    (hfull : c.weight = c.dry_mass + c.capacity) (hm : 0 < m) :
    c.load m = .ok (m, c) := by
  rw [load_eq c m hc]
  have h0 : c.capacity - (c.weight - c.dry_mass) = 0 := by rw [hfull]; ring
  rw [h0, if_neg (not_le.mpr hm), sub_zero, ← hfull]

/-- Witness for C9's amended theorem: `fullCar` (weight 70000 = 20000 +
50000) rejects an extra 100 in full. -/
theorem C9_witness : fullCar.load 100 = .ok (100, fullCar) :=
  C9_full_car_overflow fullCar 100 (by norm_num [fullCar, RollingStock.init])
    (by norm_num [fullCar, RollingStock.init]) (by norm_num)

/-- Claim C10 (counterexample to the unrestricted claim): on the degenerate
car `zeroCar` (capacity 0), `load(2)` raises `ZeroDivisionError` and returns
nothing at all, so no conservation equation about the returned overflow can
hold there. -/
theorem C10_counterexample :
    zeroCar.load 2 = .error .zeroDivision ∧
    ¬ ∃ r c1, zeroCar.load 2 = .ok (r, c1) ∧ (c1.weight - zeroCar.weight) + r = 2 := by
  have he : zeroCar.load 2 = .error .zeroDivision := by
    norm_num [zeroCar, RollingStock.init, RollingStock.load, RollingStock.isfull]
  refine ⟨he, ?_⟩
  rintro ⟨r, c1, hok, -⟩
  rw [he] at hok
  exact Except.noConfusion hok

/-- Claim C10 (amended with nonzero capacity): mass conservation of `load` —
for every `RollingStock` with `capacity ≠ 0` and every input mass `m`
(positive, zero, or negative, with no constraint on the current weight),
`load(m)` returns normally and the weight gained plus the returned overflow
equals `m`. -/
theorem C10_load_conservation (c : RollingStock) (m : Rat) (hc : c.capacity ≠ 0) :
    ∃ r c1, c.load m = .ok (r, c1) ∧ (c1.weight - c.weight) + r = m := by
  rw [load_eq c m hc]
  by_cases h : m ≤ c.capacity - (c.weight - c.dry_mass)
  · rw [if_pos h]
    refine ⟨0, _, rfl, ?_⟩
    show (c.weight + m - c.weight) + 0 = m
    ring
  · rw [if_neg h]
    refine ⟨_, _, rfl, ?_⟩
    show (c.dry_mass + c.capacity - c.weight) + (m - (c.capacity - (c.weight - c.dry_mass))) = m
    ring

/-- Witness for C10 at the partially loaded `partCar` and an input mass
exceeding its free capacity. -/
theorem C10_witness :
    ∃ r c1, partCar.load 30000 = .ok (r, c1) ∧ (c1.weight - partCar.weight) + r = 30000 :=
  C10_load_conservation partCar 30000 (by norm_num [partCar, RollingStock.init])
